import Mathlib

/-!
Verification of the PTM-detection pipeline of
`scripts/user_defined_funcs.py` (extracellular-vesicle proteomics
repository).  The Python functions are embedded shallowly: file names are
lists of characters, directories and CSV files are association lists from
names to contents, pandas operations are modelled by explicit list
functions, and Python exceptions are modelled with `Except`.  Regular
expressions that appear in the source are compiled by hand into executable
scanners that follow re.search semantics for the concrete patterns used
(the patterns contain no nesting or alternation beyond what is expanded
here, and technique names are taken as literal strings, as all names in
the default vocabulary are).
-/

namespace EVPipe

/-- Characters of a file name, cell value or other Python string. -/
abbrev Name := List Char

/-- Substring test: models the Python `in` operator on strings and
`re.search` with a literal pattern. -/
def containsSub (pat : Name) : Name → Bool
  | [] => pat.isPrefixOf []
  | s@(_ :: rest) => pat.isPrefixOf s || containsSub pat rest

/-- True when the list starts with a decimal digit. -/
def digitHead : Name → Bool
  | [] => false
  | c :: _ => c.isDigit

/-- Longest prefix consisting of decimal digits (the greedy match of a
digit-class regex). -/
def digitRun : Name → Name
  | [] => []
  | c :: rest => if c.isDigit then c :: digitRun rest else []

/-- Numeric value of a digit string, as Python int() of the matched group. -/
def digitsToNat (l : Name) : Nat := l.foldl (fun acc c => 10 * acc + (c.toNat - 48)) 0

/-- Scanner for the tail of the combine pattern: a digit immediately
followed by ".csv" somewhere in the string (re.search of a digit class
then a literal ".csv"). -/
def hasDigitDotCsv : Name → Bool
  | [] => false
  | c :: rest => (c.isDigit && (".csv".toList.isPrefixOf rest)) || hasDigitDotCsv rest

/-- Scanner for `POOL` not immediately followed by `S` (the negative
lookahead in the combine pattern of combine_pool_files, line 349), with a
digit followed by ".csv" somewhere after it. -/
def hasPoolMatch : Name → Bool
  | [] => false
  | s@(_ :: rest) =>
      (("POOL".toList.isPrefixOf s) && !(decide ((s.drop 4).head? = some 'S'))
        && hasDigitDotCsv (s.drop 4))
      || hasPoolMatch rest

/-- The individual-pool-file pattern of combine_pool_files: the technique
name, then anywhere later `POOL` not followed by `S`, then a digit
immediately followed by ".csv".  Models re.search of the f-string pattern
built at line 349 of the source, with the technique inserted literally. -/
def matchesTechPool (tech : Name) : Name → Bool
  | [] => false
  | s@(_ :: rest) =>
      (tech.isPrefixOf s && hasPoolMatch (s.drop tech.length)) || matchesTechPool tech rest

/-- First match of the pattern POOL underscore digits (used both by
extract_pool_number, line 326, and by the POOL-underscore-digit presence
tests in handle_pool_files and separate_pool_files): returns the greedy
digit group of the leftmost occurrence. -/
def poolNumDigits : Name → Option Name
  | [] => none
  | s@(_ :: rest) =>
      if ("POOL_".toList.isPrefixOf s) && digitHead (s.drop 5)
      then some (digitRun (s.drop 5))
      else poolNumDigits rest

/-- Presence of the POOL underscore digit marker in a file name. -/
def hasPoolMarkerDigit (s : Name) : Bool := (poolNumDigits s).isSome

/-- Source function extract_pool_number (lines 324-327): the integer of the
first POOL underscore digit-group, 0 when the pattern is absent. -/
def extract_pool_number (n : Name) : Nat :=
  match poolNumDigits n with
  | some ds => digitsToNat ds
  | none => 0

/-! Association-list model of a directory of files.  Writing to an existing
name replaces the content in place (Python to_csv overwrites); writing a
fresh name appends it. -/

/-- Content stored in the directory under a name, if present. -/
def lookupAssoc {β : Type} : List (Name × β) → Name → Option β
  | [], _ => none
  | (n, v) :: rest, m => if n = m then some v else lookupAssoc rest m

/-- Write (create-or-overwrite) semantics of to_csv on a path. -/
def writeAssoc {β : Type} : List (Name × β) → Name → β → List (Name × β)
  | [], n, v => [(n, v)]
  | (m, w) :: rest, n, v => if m = n then (n, v) :: rest else (m, w) :: writeAssoc rest n v

/-- Rename semantics of Path.rename: the entry keeps its content and gets
the new path. -/
def renameAssoc {β : Type} (d : List (Name × β)) (old tgt : Name) : List (Name × β) :=
  d.map (fun e => if e.1 = old then (tgt, e.2) else e)

/-! Stable ascending sort, modelling the Python sorted builtin (Timsort is
stable; any stable ascending sort computes the same list). -/

/-- Insert before the first element that is not strictly smaller, so that
elements comparing equal keep their original relative order. -/
def insertByLe {γ : Type} (le : γ → γ → Bool) (x : γ) : List γ → List γ
  | [] => [x]
  | y :: ys => if le x y then x :: y :: ys else y :: insertByLe le x ys

/-- Stable insertion sort with a boolean comparison. -/
def sortByLe {γ : Type} (le : γ → γ → Bool) : List γ → List γ
  | [] => []
  | x :: xs => insertByLe le x (sortByLe le xs)

/-- Stable ascending sort by a natural-number key. -/
def sortByKey {γ : Type} (key : γ → Nat) (l : List γ) : List γ :=
  sortByLe (fun a b => decide (key a ≤ key b)) l

/-! Model of combine_pool_files (lines 330-409). -/

/-- A directory: file names paired with row lists (rows are opaque). -/
abbrev Dir (α : Type) := List (Name × List α)

/-- Files of the directory matched by the individual-pool pattern for one
technique (tech = [] gives the technique-free pattern of the else branch,
whose leading dot-star makes it equivalent to the plain scan). -/
def poolFileMatches {α : Type} (tech : Name) (d : Dir α) : Dir α :=
  d.filter (fun f => matchesTechPool tech f.1)

/-- Name of the combined artifact written for a technique (line 373). -/
def combinedName (tech : Name) : Name := tech ++ ("_POOLS_123.csv".toList)

/-- Name of the combined artifact of the technique-free branch (line 407). -/
def allPoolsCsvName : Name := "ALL_POOLS.csv".toList

/-- Matched files sorted by ascending pool number (line 357), stable as the
Python sorted builtin is. -/
def sortPools {α : Type} (files : Dir α) : Dir α :=
  sortByKey (fun f => extract_pool_number f.1) files

/-- Row list of the combined artifact: concatenation of the matched files
in sorted order (pd.concat with ignore_index, lines 367-370). -/
def combineRows {α : Type} (tech : Name) (d : Dir α) : List α :=
  (sortPools (poolFileMatches tech d)).flatMap (fun f => f.2)

/-- One iteration of the per-technique combine loop: read the matched
files, concatenate, write the combined file. -/
def combineOne {α : Type} (tech : Name) (d : Dir α) : Dir α :=
  writeAssoc d (combinedName tech) (combineRows tech d)

/-- The per-technique loop of combine_pool_files.  When a technique matches
no file, pd.concat of an empty list raises ValueError, which stops the
whole call (the caller catches it outside), so the remaining techniques
are not processed. -/
def combineLoop {α : Type} : List Name → Dir α → Dir α
  | [], d => d
  | t :: ts, d =>
      if (poolFileMatches t d).isEmpty then d
      else combineLoop ts (combineOne t d)

/-- Source function combine_pool_files: per-technique combination when
has_techniques, otherwise a single global combination into ALL_POOLS.csv
(again aborted by pd.concat when nothing matches). -/
def combine_pool_files {α : Type} (techniques : List Name) (has_techniques : Bool)
    (d : Dir α) : Dir α :=
  if has_techniques then combineLoop techniques d
  else
    if (poolFileMatches [] d).isEmpty then d
    else writeAssoc d allPoolsCsvName (combineRows [] d)

/-! Model of the record classifier classify_ptm_types (lines 696-730).
The input is the cleaned modification string (column Clean_PTM). -/

/-- The six categories of the classifier. -/
inductive PTMCategory where
  | Fucosialylated
  | Fucosylated
  | Sialylated
  | Oligomannose
  | NoPTM
  | Other
deriving DecidableEq

/-- Fucose-family marker test (str.contains of dHex, Fucos or Biantennary). -/
def fucoseMarker (s : Name) : Bool :=
  containsSub ("dHex".toList) s || containsSub ("Fucos".toList) s
    || containsSub ("Biantennary".toList) s

/-- Sialic-acid-family marker test (NeuGc, NeuAc, Kdn or Neuraminic). -/
def sialicMarker (s : Name) : Bool :=
  containsSub ("NeuGc".toList) s || containsSub ("NeuAc".toList) s
    || containsSub ("Kdn".toList) s || containsSub ("Neuraminic".toList) s

/-- ASCII whitespace, as matched by a regex whitespace class. -/
def isPySpace (c : Char) : Bool :=
  c = ' ' || c = '\t' || c = '\n' || c = '\x0d' || c = '\x0b' || c = '\x0c'

/-- True when the list starts with a whitespace character. -/
def wsHead : Name → Bool
  | [] => false
  | c :: _ => isPySpace c

/-- Occurrence of "N-linked" whitespace "glycan" whitespace "core" starting
at the head of the string. -/
def nLinkedCoreHere (s : Name) : Bool :=
  ("N-linked".toList.isPrefixOf s) && wsHead (s.drop 8)
    && ("glycan".toList.isPrefixOf (s.drop 9)) && wsHead (s.drop 15)
    && ("core".toList.isPrefixOf (s.drop 16))

/-- Scanner for the N-linked glycan core alternative of the Oligomannose
rule. -/
def containsNLinkedCore : Name → Bool
  | [] => false
  | s@(_ :: rest) => nLinkedCoreHere s || containsNLinkedCore rest

/-- Oligomannose marker test (HexNAc or the N-linked glycan core phrase). -/
def oligoMarker (s : Name) : Bool :=
  containsSub ("HexNAc".toList) s || containsNLinkedCore s

/-- Per-string core of classify_ptm_types: the np.select rule chain over
the cleaned modification string, followed by the empty-row override that
marks empty, single-space and "nan" strings as No PTM. -/
def classify_ptm_types (s : Name) : PTMCategory :=
  let selected :=
    if fucoseMarker s && sialicMarker s then PTMCategory.Fucosialylated
    else if fucoseMarker s && !sialicMarker s then PTMCategory.Fucosylated
    else if !fucoseMarker s && sialicMarker s then PTMCategory.Sialylated
    else if oligoMarker s && !(fucoseMarker s || sialicMarker s) then PTMCategory.Oligomannose
    else if s = ("nan".toList) then PTMCategory.NoPTM
    else PTMCategory.Other
  if s = [] ∨ s = [' '] ∨ s = ("nan".toList) then PTMCategory.NoPTM else selected

/-- Boolean condition of rule 1 (Fucosialylated) of the classifier. -/
def rule1 (s : Name) : Prop := fucoseMarker s = true ∧ sialicMarker s = true

/-- Boolean condition of rule 2 (Fucosylated) of the classifier. -/
def rule2 (s : Name) : Prop := fucoseMarker s = true ∧ sialicMarker s = false

/-- Boolean condition of rule 3 (Sialylated) of the classifier. -/
def rule3 (s : Name) : Prop := fucoseMarker s = false ∧ sialicMarker s = true

/-! Model of the per-file statistics block shared by
filter_vesiclepedia_proteins (lines 877-915) and
filter_glycosylated_proteins (lines 1048-1087).  A sample row carries the
three columns the block reads; a missing value (pandas NaN) is `none` and
is dropped by value_counts, so the distinct counts are counts of distinct
present values.  The two passes differ only in the membership condition
used for the row filter, which is therefore a parameter. -/

/-- One row of a sample file, restricted to the columns the statistics
block reads. -/
structure SRow where
  prot : Option String
  ptm : Option String
  pep : Option String
deriving DecidableEq

/-- Number of distinct present values of a column (len of value_counts,
which drops missing values). -/
def nDistinct (l : List (Option String)) : Nat := (l.filterMap id).dedup.length

/-- Row condition of pass 1: Prot_Name isin the Vesiclepedia Accession
column (a missing protein name is in no list). -/
def vesiclepedia_condition (accessions : List String) (r : SRow) : Bool :=
  match r.prot with
  | some p => accessions.contains p
  | none => false

/-- Row condition of pass 2: Clean_PTM isin the modifications of
interest. -/
def glycosylated_condition (ptms_of_interest : List String) (r : SRow) : Bool :=
  match r.ptm with
  | some m => ptms_of_interest.contains m
  | none => false

/-- Distinct Prot_Name count of the whole file (line 892). -/
def totalProts (rows : List SRow) : Nat := nDistinct (rows.map (fun r => r.prot))

/-- Distinct Clean_PTM count of the whole file (line 893). -/
def totalPtms (rows : List SRow) : Nat := nDistinct (rows.map (fun r => r.ptm))

/-- Distinct Peptide_Sequence count of the whole file (line 894). -/
def totalPeps (rows : List SRow) : Nat := nDistinct (rows.map (fun r => r.pep))

/-- Distinct Prot_Name count of the filtered file (line 896). -/
def filtProts (cond : SRow → Bool) (rows : List SRow) : Nat :=
  nDistinct ((rows.filter cond).map (fun r => r.prot))

/-- Distinct Clean_PTM count of the filtered file (line 897). -/
def filtPtms (cond : SRow → Bool) (rows : List SRow) : Nat :=
  nDistinct ((rows.filter cond).map (fun r => r.ptm))

/-- Distinct Peptide_Sequence count of the filtered file (line 898). -/
def filtPeps (cond : SRow → Bool) (rows : List SRow) : Nat :=
  nDistinct ((rows.filter cond).map (fun r => r.pep))

/-- Python division of exact values: raises ZeroDivisionError on a zero
divisor, modelled as an error. -/
def pydiv (a b : Rat) : Except Unit Rat :=
  if b = 0 then Except.error () else Except.ok (a / b)

/-- Protein percentage ratio (line 900): guarded by the protein total. -/
def ratioProts (cond : SRow → Bool) (rows : List SRow) : Except Unit Rat :=
  if 0 < totalProts rows
  then pydiv (100 * (filtProts cond rows : Rat)) ((totalProts rows : Rat))
  else Except.ok 0

/-- Peptide percentage ratio (line 901): the source guards it by the
protein total while dividing by the peptide total. -/
def ratioPeps (cond : SRow → Bool) (rows : List SRow) : Except Unit Rat :=
  if 0 < totalProts rows
  then pydiv (100 * (filtPeps cond rows : Rat)) ((totalPeps rows : Rat))
  else Except.ok 0

/-- The six counts and two ratios recorded in one summary row. -/
structure FilterStats where
  n_prots : Nat
  n_ptms : Nat
  n_peptides : Nat
  n_prots_filt : Nat
  n_ptms_filt : Nat
  n_peptides_filt : Nat
  ratio_ptms_prots : Rat
  ratio_ptms_peptides : Rat
deriving DecidableEq

/-- The statistics block of one file of a filter pass (lines 892-901): the
six distinct counts, then the two ratio lines evaluated in order, an
uncaught ZeroDivisionError aborting the pass. -/
def filter_file_stats (cond : SRow → Bool) (rows : List SRow) : Except Unit FilterStats :=
  match ratioProts cond rows, ratioPeps cond rows with
  | Except.ok r1, Except.ok r2 =>
      Except.ok ⟨totalProts rows, totalPtms rows, totalPeps rows,
        filtProts cond rows, filtPtms cond rows, filtPeps cond rows, r1, r2⟩
  | Except.error e, _ => Except.error e
  | _, Except.error e => Except.error e

/-! Model of the summary-table construction and export head of the two
filter passes, far enough to cover the summary sort (lines 918-921 and
1089-1092), the point at which an empty input directory faults. -/

/-- Lexicographic comparison of strings by code point, as Python compares
strings. -/
def lexLeB : Name → Name → Bool
  | [], _ => true
  | _ :: _, [] => false
  | a :: as, b :: bs => if a = b then lexLeB as bs else decide (a < b)

/-- Remove leading characters drawn from a character set (Python lstrip). -/
def dropWhileSet (cs : Name) : Name → Name
  | [] => []
  | c :: rest => if cs.contains c then dropWhileSet cs rest else c :: rest

/-- Python str.replace, fuelled so that the recursion is structural: every
step consumes at least one input character, so fuel equal to the input
length never runs out. -/
def replaceAllSubAux (p : Char) (ps repl : Name) : Nat → Name → Name
  | _, [] => []
  | 0, s => s
  | fuel + 1, c :: rest =>
      if (p :: ps).isPrefixOf (c :: rest)
      then repl ++ replaceAllSubAux p ps repl fuel (rest.drop ps.length)
      else c :: replaceAllSubAux p ps repl fuel rest

/-- Python str.replace: replace every non-overlapping occurrence of the
(nonempty) pattern, scanning left to right. -/
def replaceAllSub (p : Char) (ps repl : Name) (s : Name) : Name :=
  replaceAllSubAux p ps repl s.length s

/-- Path.stem of the csv files handled here: the name without its ".csv"
suffix (every processed file comes from a glob over csv files). -/
def stemOf (n : Name) : Name :=
  if (".csv".toList).isSuffixOf n then n.take (n.length - 4) else n

/-- Sample-name cleanup of the filter passes (lines 843 and 1020): spaces
to underscores, double underscores collapsed, then the character-set
strips rstrip(".csv") and lstrip("DB_search_psm_"). -/
def cleanSampleName (stem : Name) : Name :=
  dropWhileSet ("DB_search_psm_".toList)
    ((dropWhileSet (".csv".toList)
      ((replaceAllSub '_' ['_'] ['_'] (replaceAllSub ' ' [] ['_'] stem)).reverse)).reverse)

/-- Technique tag of a sample (lines 849-856): first technique occurring in
the sample name, empty when none, "Generic" without techniques. -/
def techniqueOf (has_techniques : Bool) (techniques : List Name) (sample : Name) : Name :=
  if has_techniques
  then (techniques.find? (fun t => containsSub t sample)).getD []
  else "Generic".toList

/-- Pool tag of a sample (lines 858-875). -/
def poolOf (is_pooled has_techniques : Bool) (pools : List Name) (sample : Name) : Name :=
  if !is_pooled then "NO_POOL".toList
  else if has_techniques then (pools.find? (fun p => containsSub p sample)).getD []
  else
    match poolNumDigits sample with
    | some ds => ("POOL_".toList) ++ ds
    | none =>
        if containsSub ("ALL_POOLS".toList) sample
        then "ALL_POOLS".toList
        else "Unknown_Pool".toList

/-- One row of the summary DataFrame of a filter pass. -/
structure SummaryRow where
  sample : Name
  technique : Name
  pool : Name
  stats : FilterStats
deriving DecidableEq

/-- The summary DataFrame: its column labels and its rows.  A fresh
pd.DataFrame() has no columns; concatenation with a one-row frame gives
that frame. -/
structure SummaryTable where
  cols : List String
  rows : List SummaryRow
deriving DecidableEq

/-- The eleven column labels of every per-file one-row summary frame. -/
def summaryCols : List String :=
  ["Sample", "Technique", "Pool", "n Proteins Total", "n PTM Total",
   "n Peptides Total", "n Proteins Filtered", "n PTM Filtered",
   "n Peptides Filtered", "% Proteins with PTM / Total",
   "% Peptides with PTM / Total"]

/-- The initial empty summary DataFrame (line 833). -/
def emptySummary : SummaryTable := ⟨[], []⟩

/-- pd.concat of the accumulated summary with a one-row frame carrying the
standard columns (line 918): concatenation with the fresh columnless
frame yields the one-row frame itself. -/
def concatSummary (acc t : SummaryTable) : SummaryTable :=
  if acc.cols.isEmpty && acc.rows.isEmpty then t else ⟨acc.cols, acc.rows ++ t.rows⟩

/-- Ordering used by sort_values(by Technique, Pool). -/
def summaryRowLe (a b : SummaryRow) : Bool :=
  if a.technique = b.technique then lexLeB a.pool b.pool else lexLeB a.technique b.technique

/-- DataFrame.sort_values on the summary: raises KeyError when a sort
column is not among the frame columns, otherwise stably sorts the rows. -/
def sort_values_summary (byCols : List String) (t : SummaryTable) : Except Unit SummaryTable :=
  if byCols.all (fun c => t.cols.contains c)
  then Except.ok ⟨t.cols, sortByLe summaryRowLe t.rows⟩
  else Except.error ()

/-- Analysis configuration consumed by the filter passes. -/
structure PassConfig where
  techniques : List Name
  pools : List Name
  is_pooled : Bool
  has_techniques : Bool

/-- The per-file summary row of a filter pass. -/
def summaryRowFor (cfg : PassConfig) (cond : SRow → Bool) (fname : Name)
    (rows : List SRow) : Except Unit SummaryRow :=
  match filter_file_stats cond rows with
  | Except.error e => Except.error e
  | Except.ok st =>
      Except.ok
        ⟨cleanSampleName (stemOf fname),
         techniqueOf cfg.has_techniques cfg.techniques (cleanSampleName (stemOf fname)),
         poolOf cfg.is_pooled cfg.has_techniques cfg.pools (cleanSampleName (stemOf fname)),
         st⟩

/-- Source function filter_vesiclepedia_proteins, modelled through the
summary sort of line 921 (its first action after the per-file loop): the
csv files are processed in name order, each contributing one summary row,
and the accumulated frame is then sorted by Technique and Pool. -/
def filter_vesiclepedia_proteins (cfg : PassConfig) (accessions : List String)
    (files : List (Name × List SRow)) : Except Unit SummaryTable :=
  match (sortByLe (fun a b => lexLeB a.1 b.1) files).foldlM
      (fun acc f =>
        match summaryRowFor cfg (vesiclepedia_condition accessions) f.1 f.2 with
        | Except.error e => Except.error e
        | Except.ok r => Except.ok (concatSummary acc ⟨summaryCols, [r]⟩))
      emptySummary with
  | Except.error e => Except.error e
  | Except.ok t => sort_values_summary ["Technique", "Pool"] t

/-- Source function filter_glycosylated_proteins, modelled through the
summary sort of line 1092; it skips files whose name contains "summary"
and filters by the modifications of interest. -/
def filter_glycosylated_proteins (cfg : PassConfig) (ptms_of_interest : List String)
    (files : List (Name × List SRow)) : Except Unit SummaryTable :=
  match (sortByLe (fun a b => lexLeB a.1 b.1) files).foldlM
      (fun acc f =>
        if containsSub ("summary".toList) f.1 then Except.ok acc
        else
          match summaryRowFor cfg (glycosylated_condition ptms_of_interest) f.1 f.2 with
          | Except.error e => Except.error e
          | Except.ok r => Except.ok (concatSummary acc ⟨summaryCols, [r]⟩))
      emptySummary with
  | Except.error e => Except.error e
  | Except.ok t => sort_values_summary ["Technique", "Pool"] t

/-! Model of the counting core of count_proteins_by_ptm (lines 1317-1337).
A row is a pair of its Prot_Name group key and its PTM_Cluster value;
missing values are outside the model, as groupby and value_counts drop
them.  The groupby-value_counts frame has exactly one row per distinct
(protein, cluster) pair, here in first-occurrence order; the counts the
function emits are insensitive to that order. -/

/-- The grouped frame df_grouped: one row per distinct (group key, PTM
cluster) pair (lines 1319-1320). -/
def groupedPairTable {P C : Type} [DecidableEq P] [DecidableEq C]
    (rows : List (P × C)) : List (P × C) := rows.dedup

/-- The PTM-cluster column of the grouped frame. -/
def ptmClusterColumn {P C : Type} [DecidableEq P] [DecidableEq C]
    (rows : List (P × C)) : List C :=
  (groupedPairTable rows).map (fun r => r.2)

/-- The distinct PTM clusters appearing in the grouped frame (the index of
ptm_counts at line 1323). -/
def ptmTypeValues {P C : Type} [DecidableEq P] [DecidableEq C]
    (rows : List (P × C)) : List C :=
  (ptmClusterColumn rows).dedup

/-- The Count column emitted by count_proteins_by_ptm: for every distinct
cluster, the number of grouped-frame rows carrying it (line 1323). -/
def count_proteins_by_ptm_counts {P C : Type} [DecidableEq P] [DecidableEq C]
    (rows : List (P × C)) : List Nat :=
  (ptmTypeValues rows).map (fun c => (ptmClusterColumn rows).count c)

/-! Model of extract_protein_names (lines 583-616) with
extract_and_clean_accessions (lines 619-631).  The regex engine is a
parameter: findall returns the list of matches of the accession pattern in
a string.  A cell of the new column holds, before the explode, the raw
match list; pandas explode turns an empty list into a missing value (NaN)
and a list of n matches into n scalar rows. -/

/-- A cell value of the extracted-accession column. -/
inductive Cell (α : Type) where
  | nan : Cell α
  | lst : List α → Cell α
  | scal : α → Cell α
deriving DecidableEq

/-- One input row: the raw accession string (missing allowed) and the rest
of the row. -/
structure ARow (α β : Type) where
  accession : Option Name
  payload : β
deriving DecidableEq

/-- Source function extract_and_clean_accessions: findall of the compiled
pattern on the string. -/
def extract_and_clean_accessions {α : Type} (findall : Name → List α) (s : Name) : List α :=
  findall s

/-- The apply step (lines 607-609): each row gets the match list of its
accession string, an empty list when the string is missing. -/
def applyExtract {α β : Type} (findall : Name → List α) (rows : List (ARow α β)) :
    List (β × Cell α) :=
  rows.map (fun r =>
    (r.payload,
      Cell.lst (match r.accession with
        | some s => extract_and_clean_accessions findall s
        | none => [])))

/-- pandas explode of one row of the list column: an empty list becomes a
single missing value, a list of n elements becomes n scalar rows, other
cells pass through unchanged. -/
def explodeCell {α β : Type} (e : β × Cell α) : List (β × Cell α) :=
  match e.2 with
  | Cell.nan => [(e.1, Cell.nan)]
  | Cell.scal a => [(e.1, Cell.scal a)]
  | Cell.lst [] => [(e.1, Cell.nan)]
  | Cell.lst ms => ms.map (fun m => (e.1, Cell.scal m))

/-- Source function extract_protein_names, per file: the apply step
followed by df.explode on the new column. -/
def extract_protein_names {α β : Type} (findall : Name → List α)
    (rows : List (ARow α β)) : List (β × Cell α) :=
  (applyExtract findall rows).flatMap explodeCell

/-! Model of separate_pool_files (lines 412-498). -/

/-- Content of one csv file as the split step sees it: whether the Source
File Mod column is present, and the rows, each carrying that column (a
missing value allowed) and the rest of the row. -/
structure CsvFile (α : Type) where
  hasTarget : Bool
  rows : List ((Option Name) × α)
deriving DecidableEq

/-- A directory of csv files for the split step. -/
abbrev FS (α : Type) := List (Name × CsvFile α)

/-- First match of Pool underscore digits dot mgf in a Source File Mod
value (the str.extract of line 454): the digit group of the leftmost
occurrence whose greedy digit run is followed by ".mgf". -/
def extractPoolMgf : Name → Option Name
  | [] => none
  | s@(_ :: rest) =>
      if ("Pool_".toList.isPrefixOf s) && digitHead (s.drop 5)
          && (".mgf".toList.isPrefixOf ((s.drop 5).drop (digitRun (s.drop 5)).length))
      then some (digitRun (s.drop 5))
      else extractPoolMgf rest

/-- The ALL_POOLS marker. -/
def allPoolsMark : Name := "ALL_POOLS".toList

/-- Distinct pool numbers found in a file (lines 457-463): dropna, unique
in first-occurrence order, then sorted numerically (every extracted group
is a digit string). -/
def poolNumbersOf {α : Type} (f : CsvFile α) : List Name :=
  sortByKey digitsToNat ((f.rows.filterMap (fun r => r.1.bind extractPoolMgf)).dedup)

/-- Output name of one per-pool file (lines 472-475): the stem with every
_ALL_POOLS occurrence removed, then _POOL_, the number and ".csv". -/
def splitOutName (fname : Name) (num : Name) : Name :=
  (replaceAllSub '_' ("ALL_POOLS".toList) [] (stemOf fname))
    ++ ("_POOL_".toList) ++ num ++ (".csv".toList)

/-- The per-pool writes of one processed file (lines 467-479): each pool
number writes its row subset (helper column dropped, the original columns
kept) with plain to_csv overwrite semantics. -/
def writePoolFiles {α : Type} (fname : Name) (f : CsvFile α) (fs : FS α) : FS α :=
  (poolNumbersOf f).foldl
    (fun acc num =>
      writeAssoc acc (splitOutName fname num)
        ⟨f.hasTarget, f.rows.filter (fun r => r.1.bind extractPoolMgf = some num)⟩)
    fs

/-- Rename target marking the original as combined (line 484). -/
def renameTargetOf (fname : Name) : Name := stemOf fname ++ ("_ALL_POOLS.csv".toList)

/-- The rename step of one processed file (lines 483-495): skipped when the
name is already marked, skipped with a warning when the target exists,
otherwise the original is renamed. -/
def renameOriginalStep {α : Type} (fs : FS α) (fname : Name) : FS α :=
  if containsSub allPoolsMark fname then fs
  else if (lookupAssoc fs (renameTargetOf fname)).isSome then fs
  else renameAssoc fs fname (renameTargetOf fname)

/-- Processing of one candidate file of the split step (lines 441-495): a
vanished path or a missing target column or an empty pool list skips the
file; otherwise the per-pool writes happen, then the rename. -/
def processSplitFile {α : Type} (fs : FS α) (fname : Name) : FS α :=
  match lookupAssoc fs fname with
  | none => fs
  | some f =>
      if !f.hasTarget then fs
      else if (poolNumbersOf f).isEmpty then fs
      else renameOriginalStep (writePoolFiles fname f fs) fname

/-- Source function separate_pool_files: the candidate list is the
ALL_POOLS-marked files followed by the files with no POOL digit marker,
computed on the initial directory, each processed in turn against the
evolving directory. -/
def separate_pool_files {α : Type} (fs : FS α) : FS α :=
  (((fs.filter (fun e => containsSub allPoolsMark e.1)).map (fun e => e.1))
      ++ ((fs.filter (fun e =>
            !hasPoolMarkerDigit e.1 && !containsSub allPoolsMark e.1)).map (fun e => e.1))).foldl
    processSplitFile fs

/-! Model of the decision logic of handle_pool_files (lines 500-576). -/

/-- The three actions the reconciler can take. -/
inductive PoolAction where
  | doCombine
  | doSeparate
  | doNothing
deriving DecidableEq

/-- Individual pool files of the working directory (line 523). -/
def individualPoolFilesOf (files : List Name) : List Name :=
  files.filter hasPoolMarkerDigit

/-- Combined candidates of the working directory (lines 526-527). -/
def combinedFilesOf (files : List Name) : List Name :=
  files.filter (fun f =>
    containsSub allPoolsMark f || (!hasPoolMarkerDigit f && (".csv".toList.isSuffixOf f)))

/-- True when the string starts with the given character (the
startswith test applied to the lowered user choice). -/
def headIs : Name → Char → Bool
  | [], _ => false
  | c :: _, a => c = a

/-- The action handle_pool_files selects from the file listing and the
disambiguating choice (only consulted when both kinds are present). -/
def handle_pool_files_decision (files : List Name) (choice : Name) : PoolAction :=
  if !(individualPoolFilesOf files).isEmpty && (combinedFilesOf files).isEmpty
  then PoolAction.doCombine
  else if !(combinedFilesOf files).isEmpty && (individualPoolFilesOf files).isEmpty
  then PoolAction.doSeparate
  else if !(individualPoolFilesOf files).isEmpty && !(combinedFilesOf files).isEmpty then
    (if headIs choice 'c' then PoolAction.doCombine
     else if headIs choice 's' then PoolAction.doSeparate
     else if headIs choice 'a' then
       (if (combinedFilesOf files).length ≤ (individualPoolFilesOf files).length
        then PoolAction.doCombine else PoolAction.doSeparate)
     else PoolAction.doNothing)
  else PoolAction.doNothing

/-! General list lemmas used by several of the results below. -/

theorem dedup_length_le_of_sublist {γ : Type} [DecidableEq γ] {l₁ l₂ : List γ}
    (h : l₁.Sublist l₂) : l₁.dedup.length ≤ l₂.dedup.length := by
  have hsub : l₁.dedup ⊆ l₂.dedup := fun x hx =>
    List.mem_dedup.mpr (h.subset (List.mem_dedup.mp hx))
  exact ((List.nodup_dedup l₁).subperm hsub).length_le

theorem nDistinct_filter_le (cond : SRow → Bool) (rows : List SRow)
    (f : SRow → Option String) :
    nDistinct ((rows.filter cond).map f) ≤ nDistinct (rows.map f) :=
  dedup_length_le_of_sublist (((rows.filter_sublist).map f).filterMap id)

theorem mem_insertByLe {γ : Type} (le : γ → γ → Bool) (x z : γ) (l : List γ) :
    z ∈ insertByLe le x l ↔ z = x ∨ z ∈ l := by
  induction l with
  | nil => simp [insertByLe]
  | cons y ys ih =>
    simp only [insertByLe]
    split
    · simp [List.mem_cons]
    · simp only [List.mem_cons, ih]
      tauto

theorem pairwise_insertByKey {γ : Type} (key : γ → Nat) (x : γ) (l : List γ)
    (h : l.Pairwise (fun a b => key a ≤ key b)) :
    (insertByLe (fun a b => decide (key a ≤ key b)) x l).Pairwise
      (fun a b => key a ≤ key b) := by
  induction l with
  | nil => simp [insertByLe]
  | cons y ys ih =>
    rw [List.pairwise_cons] at h
    obtain ⟨hy, hys⟩ := h
    simp only [insertByLe]
    split
    · rename_i hxy
      have hxy2 : key x ≤ key y := by simpa using hxy
      refine List.pairwise_cons.mpr ⟨?_, List.pairwise_cons.mpr ⟨hy, hys⟩⟩
      intro z hz
      rcases List.mem_cons.mp hz with rfl | hz2
      · exact hxy2
      · exact le_trans hxy2 (hy z hz2)
    · rename_i hxy
      have hyx : key y ≤ key x := by
        have := of_decide_eq_false (Bool.of_not_eq_true hxy)
        omega
      refine List.pairwise_cons.mpr ⟨?_, ih hys⟩
      intro z hz
      rcases (mem_insertByLe _ x z ys).mp hz with rfl | hz2
      · exact hyx
      · exact hy z hz2

theorem pairwise_sortByKey {γ : Type} (key : γ → Nat) (l : List γ) :
    (sortByKey key l).Pairwise (fun a b => key a ≤ key b) := by
  unfold sortByKey
  induction l with
  | nil => simp [sortByLe]
  | cons x xs ih =>
    simp only [sortByLe]
    exact pairwise_insertByKey key x _ ih

theorem filter_insertByKey {γ : Type} (key : γ → Nat) (k : Nat) (x : γ) (l : List γ) :
    (insertByLe (fun a b => decide (key a ≤ key b)) x l).filter (fun a => key a == k)
      = if key x = k
        then x :: l.filter (fun a => key a == k)
        else l.filter (fun a => key a == k) := by
  induction l with
  | nil =>
    by_cases hxk : key x = k <;>
      simp [insertByLe, List.filter_cons, List.filter_nil, hxk]
  | cons y ys ih =>
    simp only [insertByLe]
    split
    · by_cases hxk : key x = k <;> simp [hxk, List.filter_cons]
    · rename_i hxy
      have hylt : key y < key x := by
        have := of_decide_eq_false (Bool.of_not_eq_true hxy)
        omega
      rw [List.filter_cons, ih]
      by_cases hxk : key x = k
      · have hyk : ¬ (key y = k) := by omega
        simp [hxk, hyk, List.filter_cons]
      · simp [hxk, List.filter_cons]

theorem filter_sortByKey {γ : Type} (key : γ → Nat) (k : Nat) (l : List γ) :
    (sortByKey key l).filter (fun a => key a == k) = l.filter (fun a => key a == k) := by
  unfold sortByKey
  induction l with
  | nil => rfl
  | cons x xs ih =>
    simp only [sortByLe]
    rw [show sortByLe (fun a b => decide (key a ≤ key b)) xs
          = sortByKey key xs from rfl] at *
    rw [filter_insertByKey]
    by_cases hxk : key x = k <;> simp [hxk, List.filter_cons, ih]

/-! Case analysis of the statistics block of the filter passes. -/

theorem ratioProts_of_zero (cond : SRow → Bool) (rows : List SRow)
    (h : totalProts rows = 0) : ratioProts cond rows = Except.ok 0 := by
  unfold ratioProts
  rw [if_neg]
  omega

theorem ratioPeps_of_zero (cond : SRow → Bool) (rows : List SRow)
    (h : totalProts rows = 0) : ratioPeps cond rows = Except.ok 0 := by
  unfold ratioPeps
  rw [if_neg]
  omega

theorem ratioProts_of_pos (cond : SRow → Bool) (rows : List SRow)
    (h : 0 < totalProts rows) :
    ratioProts cond rows
      = Except.ok (100 * (filtProts cond rows : Rat) / ((totalProts rows : Nat) : Rat)) := by
  unfold ratioProts pydiv
  rw [if_pos h, if_neg]
  exact Nat.cast_ne_zero.mpr (Nat.pos_iff_ne_zero.mp h)

theorem ratioPeps_of_pos (cond : SRow → Bool) (rows : List SRow)
    (h : 0 < totalProts rows) (h2 : totalPeps rows ≠ 0) :
    ratioPeps cond rows
      = Except.ok (100 * (filtPeps cond rows : Rat) / ((totalPeps rows : Nat) : Rat)) := by
  unfold ratioPeps pydiv
  rw [if_pos h, if_neg]
  exact Nat.cast_ne_zero.mpr h2

theorem ratioPeps_of_error (cond : SRow → Bool) (rows : List SRow)
    (h : 0 < totalProts rows) (h2 : totalPeps rows = 0) :
    ratioPeps cond rows = Except.error () := by
  unfold ratioPeps pydiv
  rw [if_pos h, h2, if_pos]
  simp

theorem filter_file_stats_of_zero (cond : SRow → Bool) (rows : List SRow)
    (h : totalProts rows = 0) :
    filter_file_stats cond rows
      = Except.ok ⟨totalProts rows, totalPtms rows, totalPeps rows, filtProts cond rows,
          filtPtms cond rows, filtPeps cond rows, 0, 0⟩ := by
  unfold filter_file_stats
  rw [ratioProts_of_zero cond rows h, ratioPeps_of_zero cond rows h]

theorem filter_file_stats_of_pos (cond : SRow → Bool) (rows : List SRow)
    (h : 0 < totalProts rows) (h2 : totalPeps rows ≠ 0) :
    filter_file_stats cond rows
      = Except.ok ⟨totalProts rows, totalPtms rows, totalPeps rows, filtProts cond rows,
          filtPtms cond rows, filtPeps cond rows,
          100 * (filtProts cond rows : Rat) / ((totalProts rows : Nat) : Rat),
          100 * (filtPeps cond rows : Rat) / ((totalPeps rows : Nat) : Rat)⟩ := by
  unfold filter_file_stats
  rw [ratioProts_of_pos cond rows h, ratioPeps_of_pos cond rows h h2]

theorem filter_file_stats_of_divzero (cond : SRow → Bool) (rows : List SRow)
    (h : 0 < totalProts rows) (h2 : totalPeps rows = 0) :
    filter_file_stats cond rows = Except.error () := by
  unfold filter_file_stats
  rw [ratioProts_of_pos cond rows h, ratioPeps_of_error cond rows h h2]

theorem ratio_nonneg_le (nf n : Nat) (hle : nf ≤ n) (hp : 0 < n) :
    0 ≤ 100 * (nf : Rat) / ((n : Nat) : Rat) ∧ 100 * (nf : Rat) / ((n : Nat) : Rat) ≤ 100 := by
  have hn : (0 : Rat) < (n : Rat) := by exact_mod_cast hp
  constructor
  · positivity
  · rw [div_le_iff₀ hn]
    have : (nf : Rat) ≤ (n : Rat) := by exact_mod_cast hle
    nlinarith

/-! Lemmas for the idempotence of the combine step. -/

theorem hasPoolMatch_of_suffix {u l : Name} (hs : u <:+ l) (h : hasPoolMatch u = true) :
    hasPoolMatch l = true := by
  induction l with
  | nil =>
    rw [List.suffix_nil.mp hs] at h
    simp [hasPoolMatch] at h
  | cons c rest ih =>
    rcases List.suffix_cons_iff.mp hs with h1 | h2
    · exact h1 ▸ h
    · have hr := ih h2
      simp [hasPoolMatch, hr]

theorem hasPoolMatch_of_matchesTechPool {t s : Name} (h : matchesTechPool t s = true) :
    hasPoolMatch s = true := by
  induction s with
  | nil => simp [matchesTechPool] at h
  | cons c rest ih =>
    rw [matchesTechPool] at h
    simp only [Bool.or_eq_true, Bool.and_eq_true] at h
    rcases h with ⟨-, hpool⟩ | h2
    · exact hasPoolMatch_of_suffix (List.drop_suffix _ _) hpool
    · exact hasPoolMatch_of_suffix (List.suffix_cons c rest) (ih h2)

theorem filter_writeAssoc {β : Type} (p : Name → Bool) (d : List (Name × β)) (n : Name)
    (v : β) (h : p n = false) :
    (writeAssoc d n v).filter (fun f => p f.1) = d.filter (fun f => p f.1) := by
  induction d with
  | nil => simp [writeAssoc, List.filter_cons, List.filter_nil, h]
  | cons e rest ih =>
    obtain ⟨m, w⟩ := e
    by_cases hm : m = n
    · subst hm
      simp [writeAssoc, List.filter_cons, h]
    · simp only [writeAssoc, if_neg hm]
      rw [List.filter_cons, List.filter_cons, ih]

theorem lookup_writeAssoc_self {β : Type} (d : List (Name × β)) (n : Name) (v : β) :
    lookupAssoc (writeAssoc d n v) n = some v := by
  induction d with
  | nil => simp [writeAssoc, lookupAssoc]
  | cons e rest ih =>
    obtain ⟨m, w⟩ := e
    by_cases hm : m = n <;> simp [writeAssoc, lookupAssoc, hm, ih]

theorem lookup_writeAssoc_ne {β : Type} (d : List (Name × β)) {n m : Name} (v : β)
    (hnm : n ≠ m) : lookupAssoc (writeAssoc d n v) m = lookupAssoc d m := by
  induction d with
  | nil => simp [writeAssoc, lookupAssoc, hnm]
  | cons e rest ih =>
    obtain ⟨a, w⟩ := e
    by_cases ha : a = n
    · subst ha
      simp [writeAssoc, lookupAssoc, hnm]
    · simp [writeAssoc, lookupAssoc, ha, ih]

theorem writeAssoc_eq_self {β : Type} {d : List (Name × β)} {n : Name} {v : β}
    (h : lookupAssoc d n = some v) : writeAssoc d n v = d := by
  induction d with
  | nil => simp [lookupAssoc] at h
  | cons e rest ih =>
    obtain ⟨m, w⟩ := e
    by_cases hm : m = n
    · subst hm
      rw [lookupAssoc, if_pos rfl] at h
      obtain rfl := Option.some_injective _ h
      simp [writeAssoc]
    · rw [lookupAssoc, if_neg hm] at h
      simp [writeAssoc, hm, ih h]

theorem combinedName_inj {t t2 : Name} (h : combinedName t = combinedName t2) : t = t2 :=
  List.append_cancel_right h

theorem matchesTechPool_combinedName {t t0 : Name}
    (h0 : hasPoolMatch (combinedName t0) = false) :
    matchesTechPool t (combinedName t0) = false := by
  cases hmt : matchesTechPool t (combinedName t0)
  · rfl
  · exact absurd (hasPoolMatch_of_matchesTechPool hmt) (by simp [h0])

theorem poolFileMatches_writeAssoc {α : Type} (t t0 : Name) (d : Dir α) (rows : List α)
    (h0 : hasPoolMatch (combinedName t0) = false) :
    poolFileMatches t (writeAssoc d (combinedName t0) rows) = poolFileMatches t d :=
  filter_writeAssoc _ d _ rows (matchesTechPool_combinedName h0)

theorem poolFileMatches_combineOne {α : Type} (t t0 : Name) (d : Dir α)
    (h0 : hasPoolMatch (combinedName t0) = false) :
    poolFileMatches t (combineOne t0 d) = poolFileMatches t d :=
  poolFileMatches_writeAssoc t t0 d _ h0

theorem combineRows_congr {α : Type} {t : Name} {d d2 : Dir α}
    (h : poolFileMatches t d = poolFileMatches t d2) : combineRows t d = combineRows t d2 := by
  unfold combineRows
  rw [h]

theorem poolFileMatches_combineLoop {α : Type} (ts : List Name)
    (h : ∀ t0 ∈ ts, hasPoolMatch (combinedName t0) = false) (t : Name) (d : Dir α) :
    poolFileMatches t (combineLoop ts d) = poolFileMatches t d := by
  induction ts generalizing d with
  | nil => rfl
  | cons t0 rest ih =>
    simp only [combineLoop]
    split
    · rfl
    · rw [ih (fun t2 ht2 => h t2 (List.mem_cons_of_mem t0 ht2)),
        poolFileMatches_combineOne t t0 d (h t0 (List.mem_cons_self t0 rest))]

theorem lookup_combineLoop_stable {α : Type} (ts : List Name)
    (h : ∀ t0 ∈ ts, hasPoolMatch (combinedName t0) = false) (d : Dir α) (n : Name)
    (v : List α) (hl : lookupAssoc d n = some v)
    (hv : ∀ t ∈ ts, combinedName t = n → combineRows t d = v) :
    lookupAssoc (combineLoop ts d) n = some v := by
  induction ts generalizing d with
  | nil => exact hl
  | cons t0 rest ih =>
    simp only [combineLoop]
    split
    · exact hl
    · have h0 := h t0 (List.mem_cons_self t0 rest)
      have hrest := fun t2 ht2 => h t2 (List.mem_cons_of_mem t0 ht2)
      apply ih hrest
      · by_cases hc : combinedName t0 = n
        · show lookupAssoc (writeAssoc d (combinedName t0) (combineRows t0 d)) n = some v
          rw [hc, lookup_writeAssoc_self,
            hv t0 (List.mem_cons_self t0 rest) hc]
        · show lookupAssoc (writeAssoc d (combinedName t0) (combineRows t0 d)) n = some v
          rw [lookup_writeAssoc_ne d _ hc, hl]
      · intro t2 ht2 hcn
        rw [combineRows_congr (poolFileMatches_combineOne t2 t0 d h0)]
        exact hv t2 (List.mem_cons_of_mem t0 ht2) hcn

theorem combineLoop_idem {α : Type} (ts : List Name)
    (h : ∀ t0 ∈ ts, hasPoolMatch (combinedName t0) = false) (d : Dir α) :
    combineLoop ts (combineLoop ts d) = combineLoop ts d := by
  induction ts generalizing d with
  | nil => rfl
  | cons t0 rest ih =>
    by_cases he : (poolFileMatches t0 d).isEmpty
    · have h1 : combineLoop (t0 :: rest) d = d := by
        simp only [combineLoop]
        rw [if_pos he]
      rw [h1, h1]
    · have h0 := h t0 (List.mem_cons_self t0 rest)
      have hrest := fun t2 ht2 => h t2 (List.mem_cons_of_mem t0 ht2)
      have hrun1 : combineLoop (t0 :: rest) d = combineLoop rest (combineOne t0 d) := by
        simp only [combineLoop]
        rw [if_neg he]
      have hm1 : poolFileMatches t0 (combineLoop rest (combineOne t0 d))
          = poolFileMatches t0 d := by
        rw [poolFileMatches_combineLoop rest hrest t0 (combineOne t0 d),
          poolFileMatches_combineOne t0 t0 d h0]
      have hlook : lookupAssoc (combineLoop rest (combineOne t0 d)) (combinedName t0)
          = some (combineRows t0 d) := by
        apply lookup_combineLoop_stable rest hrest
        · exact lookup_writeAssoc_self d (combinedName t0) (combineRows t0 d)
        · intro t2 ht2 hcn
          obtain rfl := combinedName_inj hcn
          exact combineRows_congr (poolFileMatches_combineOne t2 t2 d h0)
      have hne2 : ¬ (poolFileMatches t0 (combineLoop rest (combineOne t0 d))).isEmpty := by
        rw [hm1]
        exact he
      have hfix : combineOne t0 (combineLoop rest (combineOne t0 d))
          = combineLoop rest (combineOne t0 d) := by
        show writeAssoc (combineLoop rest (combineOne t0 d)) (combinedName t0)
            (combineRows t0 (combineLoop rest (combineOne t0 d)))
          = combineLoop rest (combineOne t0 d)
        rw [combineRows_congr hm1]
        exact writeAssoc_eq_self hlook
      rw [hrun1]
      have hstep : combineLoop (t0 :: rest) (combineLoop rest (combineOne t0 d))
          = combineLoop rest (combineOne t0 (combineLoop rest (combineOne t0 d))) := by
        simp only [combineLoop]
        rw [if_neg hne2]
      rw [hstep, hfix]
      exact ih hrest (combineOne t0 d)

/-! The claims. -/

/-- Claim C1, counterexample: a file holding one row with a protein name
but no peptide sequence drives the peptide-ratio line into a division by
zero (its guard tests the protein total instead of the peptide total),
and on a file whose single protein is not in the reference set the
protein ratio is 0 although the protein total is 1, so the ratio is not 0
exactly when the total is 0. -/
theorem C1_counterexample :
    filter_file_stats (vesiclepedia_condition []) [⟨some "A", some "x", none⟩]
        = Except.error () ∧
    (filter_file_stats (vesiclepedia_condition []) [⟨some "A", some "x", some "P"⟩]).map
        (fun st => (st.n_prots, st.n_prots_filt)) = Except.ok (1, 0) ∧
    (filter_file_stats (vesiclepedia_condition []) [⟨some "A", some "x", some "P"⟩]).map
        (fun st => st.ratio_ptms_prots) = Except.ok 0 := by
  refine ⟨?_, ?_, ?_⟩
  · exact filter_file_stats_of_divzero _ _ (by decide) (by decide)
  · rw [filter_file_stats_of_pos _ _ (by decide) (by decide)]
    rfl
  · rw [filter_file_stats_of_pos _ _ (by decide) (by decide)]
    have h0 : filtProts (vesiclepedia_condition [])
        [⟨some "A", some "x", some "P"⟩] = 0 := by decide
    have h1 : totalProts [(⟨some "A", some "x", some "P"⟩ : SRow)] = 1 := by decide
    simp [h0, h1, Except.map]

/-- Claim C1, amended: in both filter passes the filtered distinct counts
never exceed the totals; the statistics block faults with a division by
zero exactly when the distinct-protein total is positive and the
distinct-peptide total is zero (the peptide-ratio guard reuses the
protein total); and whenever it completes, both ratios lie in [0, 100],
both are 0 when the protein total is 0, and the peptide ratio is 0 when
the peptide total is 0 (a ratio may also be 0 with a positive total, when
the filtered count is 0). -/
theorem C1_theorem (cond : SRow → Bool) (rows : List SRow) :
    filtProts cond rows ≤ totalProts rows ∧
    filtPtms cond rows ≤ totalPtms rows ∧
    filtPeps cond rows ≤ totalPeps rows ∧
    (filter_file_stats cond rows = Except.error ()
        ↔ 0 < totalProts rows ∧ totalPeps rows = 0) ∧
    (∀ st : FilterStats, filter_file_stats cond rows = Except.ok st →
      0 ≤ st.ratio_ptms_prots ∧ st.ratio_ptms_prots ≤ 100 ∧
      0 ≤ st.ratio_ptms_peptides ∧ st.ratio_ptms_peptides ≤ 100 ∧
      (totalProts rows = 0 → st.ratio_ptms_prots = 0 ∧ st.ratio_ptms_peptides = 0) ∧
      (totalPeps rows = 0 → st.ratio_ptms_peptides = 0)) := by
  have hle1 : filtProts cond rows ≤ totalProts rows :=
    nDistinct_filter_le cond rows (fun r => r.prot)
  have hle2 : filtPtms cond rows ≤ totalPtms rows :=
    nDistinct_filter_le cond rows (fun r => r.ptm)
  have hle3 : filtPeps cond rows ≤ totalPeps rows :=
    nDistinct_filter_le cond rows (fun r => r.pep)
  refine ⟨hle1, hle2, hle3, ?_, ?_⟩
  · constructor
    · intro herr
      by_cases hp : 0 < totalProts rows
      · by_cases hpe : totalPeps rows = 0
        · exact ⟨hp, hpe⟩
        · rw [filter_file_stats_of_pos cond rows hp hpe] at herr
          exact absurd herr (by simp)
      · have hz : totalProts rows = 0 := by omega
        rw [filter_file_stats_of_zero cond rows hz] at herr
        exact absurd herr (by simp)
    · rintro ⟨hp, hpe⟩
      exact filter_file_stats_of_divzero cond rows hp hpe
  · intro st hst
    by_cases hp : 0 < totalProts rows
    · by_cases hpe : totalPeps rows = 0
      · rw [filter_file_stats_of_divzero cond rows hp hpe] at hst
        exact absurd hst (by simp)
      · rw [filter_file_stats_of_pos cond rows hp hpe] at hst
        simp only [Except.ok.injEq] at hst
        subst hst
        have hb1 := ratio_nonneg_le (filtProts cond rows) (totalProts rows) hle1 hp
        have hb2 := ratio_nonneg_le (filtPeps cond rows) (totalPeps rows) hle3
          (Nat.pos_of_ne_zero hpe)
        exact ⟨hb1.1, hb1.2, hb2.1, hb2.2,
          fun h0 => absurd h0 (by omega), fun h0 => absurd h0 hpe⟩
    · have hz : totalProts rows = 0 := by omega
      rw [filter_file_stats_of_zero cond rows hz] at hst
      simp only [Except.ok.injEq] at hst
      subst hst
      refine ⟨le_refl 0, by norm_num, le_refl 0, by norm_num, ?_, ?_⟩
      · exact fun _ => ⟨rfl, rfl⟩
      · exact fun _ => rfl

/-- Claim C1, witness: the fault direction of the characterisation at a
concrete file with one protein and no peptide. -/
theorem C1_witness :
    filter_file_stats (vesiclepedia_condition ["A"]) [⟨some "A", some "x", none⟩]
      = Except.error () :=
  ((C1_theorem (vesiclepedia_condition ["A"]) [⟨some "A", some "x", none⟩]).2.2.2.1).mpr
    (by decide)

/-- Claim C2, counterexample: with the technique vocabulary A, APOOL7B —
the second name contains POOL — the combined file APOOL7B_POOLS_123.csv
written by the first run is matched by technique A's individual-pool
pattern in the second run, so running the combine step twice does not
reproduce the artifact of running it once. -/
theorem C2_counterexample :
    combine_pool_files ["A".toList, "APOOL7B".toList] true
        (combine_pool_files ["A".toList, "APOOL7B".toList] true
          [("A_POOL_1.csv".toList, [1]), ("APOOL7B_POOL_1.csv".toList, [2])])
      ≠ combine_pool_files ["A".toList, "APOOL7B".toList] true
          [("A_POOL_1.csv".toList, [1]), ("APOOL7B_POOL_1.csv".toList, [2])] := by
  decide

/-- Claim C2, amended: whenever no combined output name of the configured
techniques is itself matched as an individual-pool candidate — which
holds in particular when no technique name contains POOL, and always in
the technique-free branch, whose ALL_POOLS.csv output never matches —
running the combine step twice on the same directory yields exactly the
directory of running it once: the second run selects the same individual
files and rewrites each combined file with identical content. -/
theorem C2_theorem {α : Type} (techniques : List Name) (has_techniques : Bool) (d : Dir α)
    (h : ∀ t ∈ techniques, hasPoolMatch (combinedName t) = false) :
    combine_pool_files techniques has_techniques
        (combine_pool_files techniques has_techniques d)
      = combine_pool_files techniques has_techniques d := by
  cases has_techniques with
  | true =>
    show combineLoop techniques (combineLoop techniques d) = combineLoop techniques d
    exact combineLoop_idem techniques h d
  | false =>
    by_cases he : (poolFileMatches [] d).isEmpty
    · have h1 : combine_pool_files techniques false d = d := by
        show (if (poolFileMatches [] d).isEmpty then d else _) = d
        rw [if_pos he]
      rw [h1, h1]
    · have h1 : combine_pool_files techniques false d
          = writeAssoc d allPoolsCsvName (combineRows [] d) := by
        show (if (poolFileMatches [] d).isEmpty then d else _) = _
        rw [if_neg he]
      have hmm : matchesTechPool [] allPoolsCsvName = false := by decide
      have hm : poolFileMatches [] (writeAssoc d allPoolsCsvName (combineRows [] d))
          = poolFileMatches [] d := filter_writeAssoc _ d _ _ hmm
      rw [h1]
      show (if (poolFileMatches []
              (writeAssoc d allPoolsCsvName (combineRows [] d))).isEmpty
            then writeAssoc d allPoolsCsvName (combineRows [] d)
            else writeAssoc (writeAssoc d allPoolsCsvName (combineRows [] d))
              allPoolsCsvName
              (combineRows [] (writeAssoc d allPoolsCsvName (combineRows [] d))))
          = writeAssoc d allPoolsCsvName (combineRows [] d)
      rw [hm, if_neg he, combineRows_congr hm]
      exact writeAssoc_eq_self (lookup_writeAssoc_self d _ _)

/-- Claim C2, witness: one technique, one pool file; combining twice
equals combining once. -/
theorem C2_witness :
    combine_pool_files ["SEC".toList] true
        (combine_pool_files ["SEC".toList] true [("SEC_POOL_1.csv".toList, [(0 : Nat)])])
      = combine_pool_files ["SEC".toList] true [("SEC_POOL_1.csv".toList, [(0 : Nat)])] :=
  C2_theorem _ true _ (by decide)

/-- Claim C3, counterexample: on a file whose two rows give one protein two
different PTM clusters, the emitted Count column sums to 2 while the
number of distinct proteins (groups) is 1, so the sum of counts is not
the number of distinct groups and the groups do not contribute through a
single most-frequent category. -/
theorem C3_counterexample :
    (count_proteins_by_ptm_counts [((1 : Nat), (1 : Nat)), (1, 2)]).sum = 2 ∧
    (([((1 : Nat), (1 : Nat)), (1, 2)].map Prod.fst).dedup).length = 1 := by
  decide

/-- Claim C3, amended: the Count column emitted by count_proteins_by_ptm
sums to the number of distinct (protein, PTM cluster) pairs of the file —
each protein is counted once for every distinct cluster it exhibits, not
once through its most frequent cluster — and that number is at least the
number of distinct proteins. -/
theorem C3_theorem {P C : Type} [DecidableEq P] [DecidableEq C] (rows : List (P × C)) :
    (count_proteins_by_ptm_counts rows).sum = (groupedPairTable rows).length ∧
    ((rows.map Prod.fst).dedup).length ≤ (groupedPairTable rows).length := by
  constructor
  · have h := List.sum_map_count_dedup_eq_length (ptmClusterColumn rows)
    calc (count_proteins_by_ptm_counts rows).sum
        = (ptmClusterColumn rows).length := h
      _ = (groupedPairTable rows).length := List.length_map _ _
  · have hsub : (rows.map Prod.fst).dedup ⊆ (groupedPairTable rows).map Prod.fst := by
      intro x hx
      obtain ⟨p, hp, rfl⟩ := List.mem_map.mp (List.mem_dedup.mp hx)
      exact List.mem_map.mpr ⟨p, List.mem_dedup.mpr hp, rfl⟩
    calc ((rows.map Prod.fst).dedup).length
        ≤ ((groupedPairTable rows).map Prod.fst).length :=
          ((List.nodup_dedup (rows.map Prod.fst)).subperm hsub).length_le
      _ = (groupedPairTable rows).length := List.length_map _ _

/-- Claim C4: on every nonempty cleaned modification string the record
classifier returns exactly one of the six categories, and the conditions
of rules 1 to 3 (Fucosialylated, Fucosylated, Sialylated) are pairwise
mutually exclusive. -/
theorem C4_theorem (s : Name) (_h : s ≠ []) :
    (classify_ptm_types s = PTMCategory.Fucosialylated ∨
     classify_ptm_types s = PTMCategory.Fucosylated ∨
     classify_ptm_types s = PTMCategory.Sialylated ∨
     classify_ptm_types s = PTMCategory.Oligomannose ∨
     classify_ptm_types s = PTMCategory.NoPTM ∨
     classify_ptm_types s = PTMCategory.Other) ∧
    ¬(rule1 s ∧ rule2 s) ∧ ¬(rule1 s ∧ rule3 s) ∧ ¬(rule2 s ∧ rule3 s) := by
  refine ⟨?_, ?_, ?_, ?_⟩
  · cases hc : classify_ptm_types s <;> simp
  · rintro ⟨⟨-, h1⟩, -, h2⟩
    rw [h1] at h2
    simp at h2
  · rintro ⟨⟨hf, -⟩, hf2, -⟩
    rw [hf] at hf2
    simp at hf2
  · rintro ⟨⟨hf, -⟩, hf2, -⟩
    rw [hf] at hf2
    simp at hf2

/-- Claim C4, witness at the nonempty cleaned string dHex(1). -/
theorem C4_witness : ¬(rule1 ("dHex(1)".toList) ∧ rule2 ("dHex(1)".toList)) :=
  (C4_theorem ("dHex(1)".toList) (by decide)).2.1

/-- Claim C5: the record classifier maps the cleaned string
dHex(1)NeuAc(2) to Fucosialylated, the cleaned string dHex(1) to
Fucosylated and the empty cleaned string to No PTM. -/
theorem C5_theorem :
    classify_ptm_types ("dHex(1)NeuAc(2)".toList) = PTMCategory.Fucosialylated ∧
    classify_ptm_types ("dHex(1)".toList) = PTMCategory.Fucosylated ∧
    classify_ptm_types ([] : Name) = PTMCategory.NoPTM := by
  decide

/-- Claim C6: on an input directory containing no csv file, both filter
passes abort with the KeyError raised by sort_values on the empty
column-less summary frame, instead of completing and writing an empty
summary artifact (here at a concrete configuration; the fault is reached
before any configuration value is consulted). -/
theorem C6_theorem :
    filter_vesiclepedia_proteins ⟨["SEC".toList], ["POOL_1".toList], true, true⟩ [] []
        = Except.error () ∧
    filter_glycosylated_proteins ⟨["SEC".toList], ["POOL_1".toList], true, true⟩ [] []
        = Except.error () :=
  ⟨rfl, rfl⟩

/-- Claim C7, counterexample: splitting the combined file X.csv writes
X_POOL_1.csv with plain overwrite semantics, silently replacing the
different content that an existing file of that name held before the
split. -/
theorem C7_counterexample :
    lookupAssoc [("X.csv".toList, (⟨true, [(some ("a_Pool_1.mgf".toList), 0)]⟩ : CsvFile Nat)),
        ("X_POOL_1.csv".toList, ⟨true, [(some ("zzz".toList), 7)]⟩)] ("X_POOL_1.csv".toList)
      = some ⟨true, [(some ("zzz".toList), 7)]⟩ ∧
    lookupAssoc (separate_pool_files
        [("X.csv".toList, (⟨true, [(some ("a_Pool_1.mgf".toList), 0)]⟩ : CsvFile Nat)),
         ("X_POOL_1.csv".toList, ⟨true, [(some ("zzz".toList), 7)]⟩)]) ("X_POOL_1.csv".toList)
      = some ⟨true, [(some ("a_Pool_1.mgf".toList), 0)]⟩ ∧
    (⟨true, [(some ("zzz".toList), 7)]⟩ : CsvFile Nat)
      ≠ ⟨true, [(some ("a_Pool_1.mgf".toList), 0)]⟩ := by
  decide

/-- Claim C7, amended: only the rename of the processed original to its
ALL_POOLS-marked name is collision-checked — when the rename target
already exists the rename step leaves the directory unchanged — while the
per-pool output files are written with plain overwrite semantics. -/
theorem C7_theorem {α : Type} (fs : FS α) (fname : Name) (c : CsvFile α)
    (h : lookupAssoc fs (renameTargetOf fname) = some c) :
    renameOriginalStep fs fname = fs := by
  unfold renameOriginalStep
  split
  · rfl
  · simp [h]

/-- Claim C7, witness: the rename step of Y.csv is skipped because
Y_ALL_POOLS.csv already exists. -/
theorem C7_witness :
    renameOriginalStep [("Y_ALL_POOLS.csv".toList, (⟨true, []⟩ : CsvFile Nat))]
        ("Y.csv".toList)
      = [("Y_ALL_POOLS.csv".toList, (⟨true, []⟩ : CsvFile Nat))] :=
  C7_theorem _ _ ⟨true, []⟩ (by decide)

/-- Claim C8: in the ambiguous state with both individual pool files and
combined candidates present, the auto choice combines when the individual
files outnumber the combined ones and separates when the combined files
outnumber the individual ones. -/
theorem C8_theorem (files : List Name)
    (h1 : individualPoolFilesOf files ≠ []) (h2 : combinedFilesOf files ≠ []) :
    ((combinedFilesOf files).length < (individualPoolFilesOf files).length →
        handle_pool_files_decision files ("auto".toList) = PoolAction.doCombine) ∧
    ((individualPoolFilesOf files).length < (combinedFilesOf files).length →
        handle_pool_files_decision files ("auto".toList) = PoolAction.doSeparate) := by
  have hi : (individualPoolFilesOf files).isEmpty = false := by
    cases hif : individualPoolFilesOf files
    · exact absurd hif h1
    · rfl
  have hc : (combinedFilesOf files).isEmpty = false := by
    cases hcf : combinedFilesOf files
    · exact absurd hcf h2
    · rfl
  have hc1 : headIs ("auto".toList) 'c' = false := by decide
  have hs1 : headIs ("auto".toList) 's' = false := by decide
  have ha1 : headIs ("auto".toList) 'a' = true := by decide
  have hdec : handle_pool_files_decision files ("auto".toList)
      = (if (combinedFilesOf files).length ≤ (individualPoolFilesOf files).length
         then PoolAction.doCombine else PoolAction.doSeparate) := by
    unfold handle_pool_files_decision
    rw [hi, hc, hc1, hs1, ha1]
    simp
  constructor
  · intro hlt
    rw [hdec, if_pos (le_of_lt hlt)]
  · intro hlt
    rw [hdec, if_neg (not_le.mpr hlt)]

/-- Claim C8, witness: two individual pool files against one combined
file; auto combines. -/
theorem C8_witness :
    handle_pool_files_decision
        ["A_POOL_1.csv".toList, "B_POOL_2.csv".toList, "C_ALL_POOLS.csv".toList]
        ("auto".toList)
      = PoolAction.doCombine :=
  (C8_theorem _ (by decide) (by decide)).1 (by decide)

/-- Claim C9, counterexample: a row whose accession string yields zero
matches survives the explode as a single row, but its cell holds the
missing-value marker (pandas explode turns an empty list into NaN), not
an empty list. -/
theorem C9_counterexample :
    extract_protein_names (fun _ => ([] : List Nat))
        [⟨some ("P12345; Q9XYZ0".toList), (7 : Nat)⟩]
      = [((7 : Nat), Cell.nan)] ∧
    (Cell.nan : Cell Nat) ≠ Cell.lst [] := by
  decide

/-- Claim C9, amended: accession extraction never deletes rows — a
zero-match row is kept as one row whose extracted cell is the missing
value, and a row with n matches becomes exactly n rows, one scalar match
each, all other column values (the payload) kept unchanged — so the
output has at least as many rows as the input. -/
theorem C9_theorem {α β : Type} (findall : Name → List α) (rows : List (ARow α β)) :
    extract_protein_names findall rows
        = rows.flatMap (fun r =>
            match (match r.accession with
                   | some s => extract_and_clean_accessions findall s
                   | none => ([] : List α)) with
            | [] => [(r.payload, Cell.nan)]
            | ms => ms.map (fun m => (r.payload, Cell.scal m))) ∧
    rows.length ≤ (extract_protein_names findall rows).length := by
  have hexp : ∀ (p : β) (ms : List α),
      explodeCell (p, Cell.lst ms)
        = (match ms with
           | [] => [(p, Cell.nan)]
           | ms2 => ms2.map (fun m => (p, Cell.scal m))) := by
    intro p ms
    cases ms <;> rfl
  have hstep : ∀ (r : ARow α β) (rest : List (ARow α β)),
      extract_protein_names findall (r :: rest)
        = explodeCell (r.payload, Cell.lst (match r.accession with
            | some s => extract_and_clean_accessions findall s
            | none => ([] : List α))) ++ extract_protein_names findall rest := by
    intro r rest
    rfl
  constructor
  · induction rows with
    | nil => rfl
    | cons r rest ih =>
      rw [hstep, ih, List.flatMap_cons, hexp]
  · induction rows with
    | nil => simp [extract_protein_names, applyExtract]
    | cons r rest ih =>
      rw [hstep, List.length_append, List.length_cons]
      have h1 : 1 ≤ (explodeCell (r.payload, Cell.lst (match r.accession with
          | some s => extract_and_clean_accessions findall s
          | none => ([] : List α)))).length := by
        rw [hexp]
        cases hm : (match r.accession with
            | some s => extract_and_clean_accessions findall s
            | none => ([] : List α)) with
        | nil => simp
        | cons m ms => simp
      omega

/-- Claim C10, counterexample: the matched file A_POOL_0.csv has an
extractable pool index, but that index is 0 rather than at least 1, and
the matched index-less file A_POOLx1.csv is not ordered before it by the
stable sort (both keys are 0 and enumeration order is kept). -/
theorem C10_counterexample :
    hasPoolMarkerDigit ("A_POOL_0.csv".toList) = true ∧
    extract_pool_number ("A_POOL_0.csv".toList) = 0 ∧
    matchesTechPool ("A".toList) ("A_POOL_0.csv".toList) = true ∧
    matchesTechPool ("A".toList) ("A_POOLx1.csv".toList) = true ∧
    hasPoolMarkerDigit ("A_POOLx1.csv".toList) = false ∧
    sortPools [("A_POOL_0.csv".toList, ([] : List Nat)), ("A_POOLx1.csv".toList, [])]
      = [("A_POOL_0.csv".toList, []), ("A_POOLx1.csv".toList, [])] := by
  decide

/-- Claim C10, amended: extract_pool_number returns 0 on every name
without a POOL underscore digit marker; the combine sort is ascending in
the extracted key, so files with key 0 (index-less files, and also files
whose extracted index is 0, such as POOL_0) precede every file with an
extracted index of at least 1; and files with equal keys keep their
relative enumeration order. -/
theorem C10_theorem {α : Type} (l : Dir α) :
    (∀ n : Name, hasPoolMarkerDigit n = false → extract_pool_number n = 0) ∧
    (sortPools l).Pairwise (fun a b => extract_pool_number a.1 ≤ extract_pool_number b.1) ∧
    (∀ k : Nat, (sortPools l).filter (fun f => extract_pool_number f.1 == k)
        = l.filter (fun f => extract_pool_number f.1 == k)) := by
  refine ⟨?_, ?_, ?_⟩
  · intro n hn
    unfold hasPoolMarkerDigit at hn
    unfold extract_pool_number
    cases hp : poolNumDigits n with
    | none => rfl
    | some ds =>
        rw [hp] at hn
        simp at hn
  · exact pairwise_sortByKey _ l
  · intro k
    exact filter_sortByKey _ k l

/-- Claim C10, witness: a marker-less matched name gets key 0. -/
theorem C10_witness : extract_pool_number ("SEC_NO_POOL.csv".toList) = 0 :=
  (C10_theorem ([] : Dir Nat)).1 ("SEC_NO_POOL.csv".toList) (by decide)

end EVPipe
